import Mathlib

/-!
Verification of the progress rendering core (line-mode driver, bar layout,
row formatter, TUI event loop) against its specification.

The Rust sources are embedded shallowly:

* machine integers (`u16`, `usize`, `u8`) are modelled as `Nat`; every
  subtraction in the source is either `saturating_sub` or guarded by a
  comparison, which `Nat` subtraction models exactly, and the widths
  involved never approach `2^16`, so no wrap-around is reachable;
* the `f32` fraction arithmetic of the bar layout is modelled with exact
  rationals (`ℚ`), the arithmetic the specification states the contract in;
* styling (`ANSIString` styles, the color brush) never contributes to the
  visible column width, which by construction ignores escape sequences, so
  spans are modelled as their text alone;
* the write sink is modelled as a list of output events: text writes,
  newlines, and cursor-up movements.
-/

namespace Prodash

/-- Modelled from the spec: `tree::Key` of the external tree collaborator
addresses a node and exposes a `level` (unsigned integer, 1 = root child)
used for indentation and filtering. -/
structure Key where
  level : Nat
deriving DecidableEq

/-- Progress state of a task, `tree::ProgressState`. The halt/block reasons
and timestamps of the source are irrelevant to rendering widths and are not
modelled. Modelled from the spec: `state ∈ {Running, Halted(..), Blocked(..)}`. -/
inductive ProgressState
  | Running
  | Halted
  | Blocked
deriving DecidableEq

/-- Modelled from the spec: `tree::Progress` carries a `step` counter, an
optional upper bound `done_at`, an optional display unit and a state. -/
structure Progress where
  step : Nat
  done_at : Option Nat
  unit : Option String
  state : ProgressState
deriving DecidableEq

/-- Modelled from the spec: the tree collaborator (outside the covered
sources) derives `fraction ∈ [0,1]`, present iff `done_at` is present and
non-zero, as the ratio of `step` to `done_at`. -/
def Progress.fraction (p : Progress) : Option ℚ :=
  match p.done_at with
  | some d => if d = 0 then none else some ((p.step : ℚ) / (d : ℚ))
  | none => none

/-- Modelled from the spec: `tree::Value` carries a display `name` and an
optional `Progress`. -/
structure Value where
  name : String
  progress : Option Progress
deriving DecidableEq

/-- Message severity, `tree::MessageLevel`. -/
inductive MessageLevel
  | Info
  | Success
  | Failure
deriving DecidableEq

/-- Modelled from the spec: `tree::Message` with a time, a level, an origin
string and a body. The time is an abstract instant. -/
structure Message where
  time : Nat
  level : MessageLevel
  origin : String
  message : String
deriving DecidableEq

/-- One event written to the output sink: a text write, a newline, or a
cursor-up escape (`crosstermion::cursor::MoveUp`). -/
inductive OutEvent
  | write (s : String)
  | newline
  | moveUp (n : Nat)
deriving DecidableEq

/-- `line::draw::State`. `VecDeque`s are modelled as lists whose head is the
queue front. The opaque `for_next_copy` message cursor belongs to the
external collaborator; the embedded driver instead receives the freshly
copied messages as an argument. -/
structure State where
  tree : List (Key × Value)
  messages : List Message
  max_message_origin_size : Nat
  /-- Dead field of the source (`message_origin_size`), kept for fidelity. -/
  message_origin_size : List Nat
  blocks_per_line : List Nat
deriving DecidableEq

/-- `line::draw::Options`. `level_filter` is an inclusive range modelled as
a pair of bounds. -/
structure Options where
  level_filter : Option (Nat × Nat)
  terminal_dimensions : Nat × Nat
  keep_running_if_progress_is_empty : Bool
  output_is_terminal : Bool
  colored : Bool
  timestamp : Bool
  hide_cursor : Bool
deriving DecidableEq

/-- Visible column width of one span. Every text the embedded renderer
produces is ASCII, where the unicode display width equals the character
count. -/
def spanWidth (s : String) : Nat := s.length

/-- `block_count_sans_ansi_codes`: the visible width of a span buffer, the
sum of the spans' display widths (escape sequences never counted). -/
def block_count_sans_ansi_codes (strings : List String) : Nat :=
  (strings.map spanWidth).sum

/-- A run of `n` spaces, as produced by the right-padding of an empty string. -/
def fill_spaces (n : Nat) : String := String.mk (List.replicate n ' ')

/-- A run of `n` equals signs, as produced by the equals-fill of an empty string. -/
def fill_equals (n : Nat) : String := String.mk (List.replicate n '=')

/-- The 6-element marquee cycle `CHARS` of `draw_progress_bar`. -/
def marquee_chars : List Char := ['=', '=', '=', ' ', ' ', ' ']

/-- `line::draw::draw_progress_bar`. The style argument of the source only
colors spans and never changes their text, so it is dropped. The `f32`
fraction product is modelled exactly over `ℚ`. -/
def draw_progress_bar (p : Progress) (blocks_available : Nat) (buf : List String) :
    List String :=
  let blocks_available := blocks_available - 3
  let buf := buf ++ [" ["]
  let buf :=
    match p.fraction with
    | some fraction =>
      let blocks_available := blocks_available - 1
      let progress_blocks := (⌊(blocks_available : ℚ) * fraction⌋).toNat
      buf ++ [fill_equals progress_blocks, ">",
        fill_spaces (blocks_available - progress_blocks)]
    | none =>
      buf ++ [String.mk
        (((List.range blocks_available).map
            (fun i => marquee_chars.getD ((p.step + i) % marquee_chars.length) ' ')).reverse)]
  buf ++ ["]"]

/-- `line::draw::format_progress`. The `colored` flag only selects styles
and never changes span texts, so it is dropped; the buffer is rebuilt from
scratch as the source clears it on entry. -/
def format_progress (key : Key) (value : Value) (column_count : Nat) : List String :=
  let buf : List String := [fill_spaces key.level]
  match value.progress with
  | some progress =>
    let buf := buf ++ [value.name, " "]
    let buf := buf ++
      [match progress.done_at with
       | some done_at => toString progress.step ++ " / " ++ toString done_at
       | none => toString progress.step]
    let buf :=
      match progress.unit with
      | some u => buf ++ [" ", u]
      | none => buf
    let blocks_left := column_count - block_count_sans_ansi_codes buf
    if blocks_left > 0 then draw_progress_bar progress blocks_left buf else buf
  | none => buf ++ [value.name]

/-- `line::draw::newline_with_overdraw`: called directly after `tokens` were
written; pads with spaces up to the width drawn at this slot on the previous
tick before the newline, and returns the current width. The single
`writeln!` of a padded empty string is modelled as a write of the pad
followed by a newline event. -/
def newline_with_overdraw (tokens : List String) (blocks_in_last_iteration : Nat) :
    List OutEvent × Nat :=
  let current_block_count := block_count_sans_ansi_codes tokens
  if blocks_in_last_iteration > current_block_count then
    ([OutEvent.write (fill_spaces (blocks_in_last_iteration - current_block_count)),
      OutEvent.newline], current_block_count)
  else
    ([OutEvent.newline], current_block_count)

/-- Span list of one message row, as assembled by `line::draw::messages`:
a leading space, the optional timestamp, the origin right-aligned in
`maxOrigin` columns, a space, and the body. Styling (brush, colors) never
changes the span texts and is dropped; the timestamp text comes from the
external `time` module and is supplied as `fmtTime`. -/
def message_tokens (maxOrigin : Nat) (timestamp : Bool) (fmtTime : Nat → String)
    (m : Message) : List String :=
  [" "] ++ (if timestamp then [fmtTime m.time, " "] else [""]) ++
    [fill_spaces (maxOrigin - m.origin.length) ++ m.origin, " ", m.message]

/-- The message loop of `line::draw::messages`: for each message, pop the
front of `blocks_per_line` to recover the width of the same slot on the
previous tick (0 if absent), grow `max_message_origin_size` monotonically,
write the row and overdraw-pad or plain-newline. Returns the written
events, the remaining queue and the new maximal origin width. -/
def messages_loop (msgs : List Message) (blocks : List Nat) (maxOrigin : Nat)
    (timestamp : Bool) (fmtTime : Nat → String) :
    List OutEvent × List Nat × Nat :=
  match msgs with
  | [] => ([], blocks, maxOrigin)
  | m :: rest =>
    let blocks_drawn_during_previous_tick := blocks.headD 0
    let maxOrigin' := max maxOrigin m.origin.length
    let tokens := message_tokens maxOrigin' timestamp fmtTime m
    let message_block_count := block_count_sans_ansi_codes tokens
    let ev := OutEvent.write (String.join tokens) ::
      (if blocks_drawn_during_previous_tick > message_block_count then
        (newline_with_overdraw tokens blocks_drawn_during_previous_tick).1
      else [OutEvent.newline])
    let rec2 := messages_loop rest blocks.tail maxOrigin' timestamp fmtTime
    (ev ++ rec2.1, rec2.2.1, rec2.2.2)

/-- `line::draw::messages` as a state transformer: renders every retained
message and threads the queue and origin-width fields through the state. -/
def messages_phase (state : State) (config : Options) (fmtTime : Nat → String) :
    List OutEvent × State :=
  let r := messages_loop state.messages state.blocks_per_line
    state.max_message_origin_size config.timestamp fmtTime
  (r.1, { state with blocks_per_line := r.2.1, max_message_origin_size := r.2.2 })

/-- The level filter of the snapshot: keep the rows whose `key.level` lies
in the inclusive `level_filter` range, defaulting to the full `Level`
(`u8`) range `0 ..= 255`. -/
def filtered_rows (tree : List (Key × Value)) (config : Options) :
    List (Key × Value) :=
  let level_range := config.level_filter.getD (0, 255)
  tree.filter (fun e => decide (level_range.1 ≤ e.1.level ∧ e.1.level ≤ level_range.2))

/-- `VecDeque::resize(n, 0)` in the growing direction: extend the queue with
zeros up to `n` entries; a queue that is already long enough is unchanged. -/
def resize_up (blocks : List Nat) (n : Nat) : List Nat :=
  if blocks.length < n then blocks ++ List.replicate (n - blocks.length) 0 else blocks

/-- The progress-row loop of `line::draw::all`: each filtered row is
formatted, written, and closed by `newline_with_overdraw` against the width
stored at its queue slot, which is then replaced by the new width. Mirrors
the `zip` of the filtered iterator with `blocks_per_line.iter_mut()`: it
stops when either side is exhausted and leaves the untouched queue tail
as it was. -/
def draw_rows (entries : List (Key × Value)) (blocks : List Nat)
    (column_count : Nat) : List OutEvent × List Nat :=
  match entries, blocks with
  | e :: es, b :: bs =>
    let tokens := format_progress e.1 e.2 column_count
    let nl := newline_with_overdraw tokens b
    let rec2 := draw_rows es bs column_count
    (OutEvent.write (String.join tokens) :: nl.1 ++ rec2.1, nl.2 :: rec2.2)
  | _, _ => ([], blocks)

/-- The queue as left by the progress-row loop of a tick: new widths at the
drawn slots, previous widths at the stale tail. -/
def drawn_blocks (state : State) (config : Options) : List Nat :=
  (draw_rows (filtered_rows state.tree config)
    (resize_up state.blocks_per_line (filtered_rows state.tree config).length)
    config.terminal_dimensions.1).2

/-- The output events of the progress-row loop of a tick. -/
def drawn_events (state : State) (config : Options) : List OutEvent :=
  (draw_rows (filtered_rows state.tree config)
    (resize_up state.blocks_per_line (filtered_rows state.tree config).length)
    config.terminal_dimensions.1).1

/-- Erasure of the stale trailing queue entries: one line of exactly the
stored width in spaces per entry (`writeln!("{:>width$}", "")`). -/
def stale_events (widths : List Nat) : List OutEvent :=
  (widths.map (fun w => [OutEvent.write (fill_spaces w), OutEvent.newline])).flatten

/-- The progress section of `line::draw::all` (the body of
`show_progress && output_is_terminal`): resize the queue up, draw the
filtered rows, erase stale trailing rows and shrink the queue if any, and
rewind the cursor to the top of the block. -/
def progress_phase (state : State) (config : Options) : List OutEvent × State :=
  let lines_drawn := (filtered_rows state.tree config).length
  if (drawn_blocks state config).length > lines_drawn then
    (drawn_events state config ++
      stale_events ((drawn_blocks state config).drop lines_drawn) ++
      [OutEvent.moveUp (drawn_blocks state config).length],
     { state with blocks_per_line := (drawn_blocks state config).take lines_drawn })
  else
    (drawn_events state config ++ [OutEvent.moveUp lines_drawn],
     { state with blocks_per_line := drawn_blocks state config })

/-- `line::draw::all`, the per-tick driver. The external tree collaborator
is represented by its responses: `snapshot` is what `sorted_snapshot`
overwrites `state.tree` with, and `new_msgs` is what `copy_new_messages`
appends to `state.messages` (spec section 4.5, step 3). Returns the events
written to the sink together with the resulting state, or the sentinel
error when progress is empty and the caller did not ask to keep running. -/
def all (snapshot : List (Key × Value)) (new_msgs : List Message)
    (show_progress : Bool) (state : State) (config : Options)
    (fmtTime : Nat → String) : List OutEvent × Except String State :=
  let state1 : State := { state with tree := snapshot }
  if config.keep_running_if_progress_is_empty = false ∧ state1.tree = [] then
    ([], Except.error "stop as progress is empty")
  else
    let state2 : State := { state1 with messages := state1.messages ++ new_msgs }
    let mp := messages_phase state2 config fmtTime
    if show_progress = true ∧ config.output_is_terminal = true then
      let pp := progress_phase mp.2 config
      (mp.1 ++ pp.1, Except.ok pp.2)
    else
      (mp.1, Except.ok mp.2)

/-- Whether an output event is a newline, the row terminator. -/
def OutEvent.isNewline : OutEvent → Bool
  | OutEvent.newline => true
  | _ => false

/-- The number of rows physically written in an event list: one per newline. -/
def rows_written (evs : List OutEvent) : Nat :=
  (evs.filter OutEvent.isNewline).length

/-- `tui::engine::input::Key`, the normalized key taxonomy. -/
inductive TuiKey
  | Backspace
  | Left
  | Right
  | Up
  | Down
  | Home
  | End
  | PageUp
  | PageDown
  | BackTab
  | Delete
  | Insert
  | F (n : Nat)
  | Char (c : Char)
  | Alt (c : Char)
  | Ctrl (c : Char)
  | Null
  | Esc
deriving DecidableEq

/-- `crossterm::event::KeyCode` (the variants the engine distinguishes). -/
inductive KeyCode
  | Backspace
  | Enter
  | Left
  | Right
  | Up
  | Down
  | Home
  | End
  | PageUp
  | PageDown
  | Tab
  | BackTab
  | Delete
  | Insert
  | F (n : Nat)
  | Null
  | Esc
  | Char (c : Char)
deriving DecidableEq

/-- `crossterm::event::KeyModifiers`, a bitflag set with the SHIFT, CONTROL
and ALT bits. -/
structure KeyModifiers where
  shift : Bool
  control : Bool
  alt : Bool
deriving DecidableEq

/-- The `KeyModifiers::SHIFT` constant: only the shift bit set. -/
def KeyModifiers.SHIFT : KeyModifiers := ⟨true, false, false⟩

/-- The `KeyModifiers::CONTROL` constant: only the control bit set. -/
def KeyModifiers.CONTROL : KeyModifiers := ⟨false, true, false⟩

/-- The `KeyModifiers::ALT` constant: only the alt bit set. -/
def KeyModifiers.ALT : KeyModifiers := ⟨false, false, true⟩

/-- The empty `KeyModifiers` set: no modifier pressed. -/
def KeyModifiers.NONE : KeyModifiers := ⟨false, false, false⟩

/-- `crossterm::event::KeyEvent`: a key code with its modifier set. -/
structure KeyEvent where
  code : KeyCode
  modifiers : KeyModifiers
deriving DecidableEq

/-- `TryFrom<crossterm::event::KeyEvent> for Key` of `tui::engine::input`.
A `match` on a bitflags value against a bitflags constant compares for
equality, so each `Char` arm fires only when exactly that one modifier is
set; any other modifier combination falls to the `_` arm and is rejected
with the original event. -/
def try_from_key_event (value : KeyEvent) : Except KeyEvent TuiKey :=
  match value.code with
  | KeyCode.Backspace => Except.ok TuiKey.Backspace
  | KeyCode.Enter => Except.ok (TuiKey.Char '\n')
  | KeyCode.Left => Except.ok TuiKey.Left
  | KeyCode.Right => Except.ok TuiKey.Right
  | KeyCode.Up => Except.ok TuiKey.Up
  | KeyCode.Down => Except.ok TuiKey.Down
  | KeyCode.Home => Except.ok TuiKey.Home
  | KeyCode.End => Except.ok TuiKey.End
  | KeyCode.PageUp => Except.ok TuiKey.PageUp
  | KeyCode.PageDown => Except.ok TuiKey.PageDown
  | KeyCode.Tab => Except.ok (TuiKey.Char '\t')
  | KeyCode.BackTab => Except.ok TuiKey.BackTab
  | KeyCode.Delete => Except.ok TuiKey.Delete
  | KeyCode.Insert => Except.ok TuiKey.Insert
  | KeyCode.F k => Except.ok (TuiKey.F k)
  | KeyCode.Null => Except.ok TuiKey.Null
  | KeyCode.Esc => Except.ok TuiKey.Esc
  | KeyCode.Char c =>
    if value.modifiers = KeyModifiers.SHIFT then Except.ok (TuiKey.Char c)
    else if value.modifiers = KeyModifiers.CONTROL then Except.ok (TuiKey.Ctrl c)
    else if value.modifiers = KeyModifiers.ALT then Except.ok (TuiKey.Alt c)
    else Except.error value

/-- A sidebar line, `tui::engine::Line`. -/
inductive TuiLine
  | Title (s : String)
  | Text (s : String)
deriving DecidableEq

/-- A window rectangle, `tui::layout::Rect`. -/
structure Rect where
  x : Nat
  y : Nat
  width : Nat
  height : Nat
deriving DecidableEq

/-- `tui::engine::Interrupt`, the user-facing interrupt mode selector. -/
inductive Interrupt
  | Instantly
  | Deferred
deriving DecidableEq

/-- `tui::engine::InterruptDrawInfo`: the loop-internal interrupt mode;
the boolean of `Deferred` signals whether an interrupt was requested. -/
inductive InterruptDrawInfo
  | Instantly
  | Deferred (interrupt_requested : Bool)
deriving DecidableEq

/-- Modelled from the spec: `tui::draw::State` (the `TuiState` of spec
section 3; `tui/draw.rs` is outside the covered sources). Value equality
is structural, as the source derives `PartialEq` for change detection. The
frame duration is an abstract instant count. -/
structure DrawState where
  title : String
  duration_per_frame : Nat
  information : List TuiLine
  hide_messages : Bool
  messages_fullscreen : Bool
  hide_info : Bool
  maximize_info : Bool
  task_offset : Nat
  message_offset : Nat
  last_tree_column_width : Option Nat
  next_tree_column_width : Option Nat
  user_provided_window_size : Option Rect
deriving DecidableEq

/-- `tui::engine::Event`, the TUI event surface. -/
inductive TuiEvent
  | Tick
  | Input (key : TuiKey)
  | SetWindowSize (bound : Rect)
  | SetTitle (title : String)
  | SetInformation (info : List TuiLine)
  | SetInterruptMode (mode : Interrupt)
deriving DecidableEq

/-- The loop-relevant fields of `tui::engine::TuiOptions`. The
`frames_per_second` float only paces the external ticker and is not
modelled. -/
structure TuiOptions where
  title : String
  recompute_column_width_every_nth_frame : Option Nat
  window_size : Option Rect
  redraw_only_on_state_change : Bool
  stop_if_empty_progress : Bool
deriving DecidableEq

/-- The mutable state of one `render_with_input` loop iteration: the draw
state, the interrupt mode, the frame counter and the redraw-elision clones
of the previous `TuiState` and tree snapshot. The tree is represented by
its sorted snapshot; the collaborator contract makes `deep_eq` equality
and `deep_clone` the identity on that representation. -/
structure LoopState where
  draw_state : DrawState
  interrupt_mode : InterruptDrawInfo
  tick : Nat
  previous_root : Option (List (Key × Value))
  previous_state : Option DrawState
deriving DecidableEq

/-- The outcome of one loop iteration: exit the loop, or continue with a
new state; `drew` records whether the redraw pass ran, i.e. whether the
back-buffer was committed to the terminal on this event. -/
inductive StepResult
  | exit
  | cont (s : LoopState) (drew : Bool)
deriving DecidableEq

/-- Whether a key is one of the interrupt keys
`Esc | Char('q') | Ctrl('c') | Ctrl('[')`. -/
def is_interrupt_key : TuiKey → Bool
  | TuiKey.Esc => true
  | TuiKey.Char c => c = 'q'
  | TuiKey.Ctrl c => c = 'c' || c = '['
  | _ => false

/-- The event dispatch of `render_with_input` (the `match event` block):
returns `none` when the arm breaks out of the loop, and otherwise the
updated draw state, interrupt mode, and the `skip_redraw` flag. The
backquote and left-brace characters are written via their code points. -/
def dispatch (state : DrawState) (interrupt_mode : InterruptDrawInfo)
    (e : TuiEvent) : Option (DrawState × InterruptDrawInfo × Bool) :=
  match e with
  | TuiEvent.Tick => some (state, interrupt_mode, false)
  | TuiEvent.Input key =>
    if is_interrupt_key key then
      match interrupt_mode with
      | InterruptDrawInfo.Instantly => none
      | InterruptDrawInfo.Deferred _ =>
        some (state, InterruptDrawInfo.Deferred true, false)
    else
      match key with
      | TuiKey.Char c =>
        if c = Char.ofNat 96 then
          some ({ state with hide_messages := !state.hide_messages }, interrupt_mode, false)
        else if c = '~' then
          some ({ state with messages_fullscreen := !state.messages_fullscreen },
            interrupt_mode, false)
        else if c = 'J' then
          some ({ state with message_offset := state.message_offset + 1 },
            interrupt_mode, false)
        else if c = 'D' then
          some ({ state with message_offset := state.message_offset + 10 },
            interrupt_mode, false)
        else if c = 'j' then
          some ({ state with task_offset := state.task_offset + 1 },
            interrupt_mode, false)
        else if c = 'd' then
          some ({ state with task_offset := state.task_offset + 10 },
            interrupt_mode, false)
        else if c = 'K' then
          some ({ state with message_offset := state.message_offset - 1 },
            interrupt_mode, false)
        else if c = 'U' then
          some ({ state with message_offset := state.message_offset - 10 },
            interrupt_mode, false)
        else if c = 'k' then
          some ({ state with task_offset := state.task_offset - 1 },
            interrupt_mode, false)
        else if c = 'u' then
          some ({ state with task_offset := state.task_offset - 10 },
            interrupt_mode, false)
        else if c = '[' then
          some ({ state with hide_info := !state.hide_info }, interrupt_mode, false)
        else if c = Char.ofNat 123 then
          some ({ state with maximize_info := !state.maximize_info },
            interrupt_mode, false)
        else some (state, interrupt_mode, true)
      | _ => some (state, interrupt_mode, true)
  | TuiEvent.SetWindowSize bound =>
    some ({ state with user_provided_window_size := some bound }, interrupt_mode, false)
  | TuiEvent.SetTitle title => some ({ state with title := title }, interrupt_mode, false)
  | TuiEvent.SetInformation info =>
    some ({ state with information := info }, interrupt_mode, false)
  | TuiEvent.SetInterruptMode mode =>
    match mode with
    | Interrupt.Instantly =>
      match interrupt_mode with
      | InterruptDrawInfo.Deferred true => none
      | _ => some (state, InterruptDrawInfo.Instantly, false)
    | Interrupt.Deferred =>
      some (state,
        InterruptDrawInfo.Deferred
          (match interrupt_mode with
           | InterruptDrawInfo.Deferred interrupt_requested => interrupt_requested
           | _ => false),
        false)

/-- The redraw pass of `render_with_input` (the `if !skip_redraw` block):
bump the frame counter, exit when `stop_if_empty_progress` and the snapshot
is empty, promote the tree column width every Nth frame, and commit the
back-buffer. Snapshotting, the window-size resolution, message copying and
`tui::draw::all` render into the external back-buffer and are outside the
covered sources; the `drew = true` of the result records their terminal
commit. -/
def redraw_pass (opts : TuiOptions) (tree : List (Key × Value)) (s : LoopState) :
    StepResult :=
  let tick := s.tick + 1
  if opts.stop_if_empty_progress = true ∧ tree = [] then StepResult.exit
  else
    let store_task_size_every := max (opts.recompute_column_width_every_nth_frame.getD 1) 1
    let st := s.draw_state
    let st :=
      if tick = 1 ∨ tick % store_task_size_every = 0 ∨ st.last_tree_column_width.getD 0 = 0
      then { st with next_tree_column_width := st.last_tree_column_width }
      else st
    StepResult.cont { s with draw_state := st, tick := tick } true

/-- One iteration of the `render_with_input` event loop: dispatch the
event, then (when `redraw_only_on_state_change`) compare the `TuiState`
against the previous clone and the tree against the previous deep clone to
decide whether the redraw pass may be skipped, and finally run the redraw
pass unless skipped. -/
def engine_step (opts : TuiOptions) (tree : List (Key × Value)) (s : LoopState)
    (e : TuiEvent) : StepResult :=
  match dispatch s.draw_state s.interrupt_mode e with
  | none => StepResult.exit
  | some (st, im, skip0) =>
    let s1 : LoopState := { s with draw_state := st, interrupt_mode := im }
    if skip0 = true then StepResult.cont s1 false
    else if opts.redraw_only_on_state_change = true then
      match s.previous_state with
      | some prev =>
        if prev = st then
          match s.previous_root with
          | some prevRoot =>
            if prevRoot = tree then
              StepResult.cont
                { s1 with previous_state := some prev, previous_root := some prevRoot }
                false
            else
              redraw_pass opts tree
                { s1 with previous_state := some prev, previous_root := some tree }
          | none =>
            redraw_pass opts tree
              { s1 with previous_state := some prev, previous_root := some tree }
        else redraw_pass opts tree { s1 with previous_state := some st }
      | none => redraw_pass opts tree { s1 with previous_state := some st }
    else redraw_pass opts tree s1

/-- The interrupt mode carried by a continuing step result. -/
def StepResult.contMode : StepResult → Option InterruptDrawInfo
  | StepResult.cont s _ => some s.interrupt_mode
  | StepResult.exit => none

/-- Whether a step result exits the loop. -/
def StepResult.isExit : StepResult → Bool
  | StepResult.exit => true
  | StepResult.cont _ _ => false

/-- Whether a step result performed a terminal write on this iteration. -/
def StepResult.drewFlag : StepResult → Option Bool
  | StepResult.cont _ drew => some drew
  | StepResult.exit => none

/-- The state delivered by a successful driver tick, if any. -/
def ok_result : List OutEvent × Except String State → Option State
  | (_, Except.ok st) => some st
  | (_, Except.error _) => none

/-- A determinate half-done task, the entry of spec scenario 2. -/
def build_progress : Progress :=
  { step := 5, done_at := some 10, unit := none, state := ProgressState.Running }

/-- The `"build"` task value of spec scenario 2. -/
def build_value : Value := { name := "build", progress := some build_progress }

/-- A level-1 key. -/
def build_key : Key := { level := 1 }

/-- A task value without progress: rendered as a headline row. -/
def headline_value : Value := { name := "build", progress := none }

/-- A line-mode configuration: 40-column terminal, uncolored, no
timestamps, keep running on empty progress. -/
def demo_config : Options :=
  { level_filter := none, terminal_dimensions := (40, 20),
    keep_running_if_progress_is_empty := true, output_is_terminal := true,
    colored := false, timestamp := false, hide_cursor := false }

/-- The demo configuration with `keep_running_if_progress_is_empty` unset. -/
def stop_config : Options :=
  { demo_config with keep_running_if_progress_is_empty := false }

/-- A fresh line-mode state: nothing drawn yet. -/
def empty_line_state : State :=
  { tree := [], messages := [], max_message_origin_size := 0,
    message_origin_size := [], blocks_per_line := [] }

/-- A fresh line-mode state whose queue remembers three previously drawn
rows of widths 7, 5 and 4. -/
def three_row_state : State := { empty_line_state with blocks_per_line := [7, 5, 4] }

/-- An informational message. -/
def demo_message : Message :=
  { time := 0, level := MessageLevel.Info, origin := "src", message := "hello" }

/-- A TUI draw state with all panels visible and no stored column widths. -/
def base_draw_state : DrawState :=
  { title := "T", duration_per_frame := 1, information := [],
    hide_messages := false, messages_fullscreen := false, hide_info := false,
    maximize_info := false, task_offset := 0, message_offset := 0,
    last_tree_column_width := none, next_tree_column_width := none,
    user_provided_window_size := none }

/-- TUI options with redraw elision enabled and no empty-progress stop. -/
def elide_opts : TuiOptions :=
  { title := "T", recompute_column_width_every_nth_frame := none,
    window_size := none, redraw_only_on_state_change := true,
    stop_if_empty_progress := false }

/-- TUI options with the empty-progress stop enabled and no elision. -/
def stop_opts : TuiOptions :=
  { title := "T", recompute_column_width_every_nth_frame := none,
    window_size := none, redraw_only_on_state_change := false,
    stop_if_empty_progress := true }

/-- A one-task tree snapshot. -/
def one_task_tree : List (Key × Value) := [(build_key, build_value)]

/-- A fresh loop state: no clones stored, interrupt mode `Instantly`. -/
def fresh_loop_state : LoopState :=
  { draw_state := base_draw_state, interrupt_mode := InterruptDrawInfo.Instantly,
    tick := 0, previous_root := none, previous_state := none }

/-- The loop state after the first unchanged tick under redraw elision:
only the previous `TuiState` clone is stored. -/
def second_tick_state : LoopState :=
  { fresh_loop_state with previous_state := some base_draw_state, tick := 1 }

/-- The loop state after the second unchanged tick under redraw elision:
both clones are stored. -/
def third_tick_state : LoopState :=
  { second_tick_state with previous_root := some one_task_tree, tick := 2 }

/-- A fresh loop state in unarmed deferred-interrupt mode. -/
def deferred_loop_state : LoopState :=
  { fresh_loop_state with interrupt_mode := InterruptDrawInfo.Deferred false }

/-- A fresh loop state in armed deferred-interrupt mode. -/
def armed_loop_state : LoopState :=
  { fresh_loop_state with interrupt_mode := InterruptDrawInfo.Deferred true }

/-- The driver state after the message phase of a tick: snapshot stored,
new messages appended, message rows rendered. -/
def state_after_messages (snapshot : List (Key × Value)) (new_msgs : List Message)
    (state : State) (config : Options) (fmtTime : Nat → String) : State :=
  (messages_phase { state with tree := snapshot, messages := state.messages ++ new_msgs }
    config fmtTime).2

/-- The output events of the message phase of a tick. -/
def messages_events (snapshot : List (Key × Value)) (new_msgs : List Message)
    (state : State) (config : Options) (fmtTime : Nat → String) : List OutEvent :=
  (messages_phase { state with tree := snapshot, messages := state.messages ++ new_msgs }
    config fmtTime).1

/-- A determinate task at one of two steps: fraction one half. -/
def half_progress : Progress :=
  { step := 1, done_at := some 2, unit := none, state := ProgressState.Running }

/-- An indeterminate task at step 0. -/
def marquee_progress : Progress :=
  { step := 0, done_at := none, unit := none, state := ProgressState.Running }

/-- The driver state left by the one-message one-headline tick used as the
concrete run for the queue-length invariant. -/
def c2_final_state : State :=
  { tree := [(build_key, headline_value)], messages := [demo_message],
    max_message_origin_size := 3, message_origin_size := [], blocks_per_line := [6] }

/-! Helper lemmas shared by the claim theorems. -/

/-- A run of spaces occupies exactly as many columns as requested. -/
theorem fill_spaces_length (n : Nat) : (fill_spaces n).length = n := by
  simp [fill_spaces, String.length]

/-- A run of equals signs occupies exactly as many columns as requested. -/
theorem fill_equals_length (n : Nat) : (fill_equals n).length = n := by
  simp [fill_equals, String.length]

/-- Rational floor of a product with a quotient of naturals is natural
division, the bridge from the bar layout's exact fraction arithmetic to a
computable form. -/
theorem floor_natCast_mul_div (a b c : ℕ) :
    (⌊(a : ℚ) * ((b : ℚ) / (c : ℚ))⌋).toNat = a * b / c := by
  rcases Nat.eq_zero_or_pos c with hc | hc
  · subst hc; simp
  · have h : (a : ℚ) * ((b : ℚ) / (c : ℚ)) = (((a * b : ℕ) : ℤ) : ℚ) / ((c : ℕ) : ℚ) := by
      push_cast; ring
    rw [h, Rat.floor_intCast_div_natCast, ← Int.ofNat_ediv]
    exact Int.toNat_natCast _

/-- Computable evaluation of the determinate bar: with `done_at = d ≠ 0`
the filled block count is `(W - 4) * step / d` in natural arithmetic. -/
theorem draw_progress_bar_det (p : Progress) (d : Nat) (W : Nat) (buf : List String)
    (hd : p.done_at = some d) (h0 : d ≠ 0) :
    draw_progress_bar p W buf =
      buf ++ [" [", fill_equals ((W - 3 - 1) * p.step / d), ">",
        fill_spaces ((W - 3 - 1) - (W - 3 - 1) * p.step / d), "]"] := by
  have hfrac : p.fraction = some ((p.step : ℚ) / (d : ℚ)) := by
    simp [Progress.fraction, hd, h0]
  simp only [draw_progress_bar, hfrac, floor_natCast_mul_div]
  simp [List.append_assoc]

/-- The progress-row loop never changes the length of the width queue: it
replaces one stored width per drawn row and leaves the tail untouched. -/
theorem draw_rows_blocks_length (entries : List (Key × Value)) (blocks : List Nat)
    (W : Nat) : ((draw_rows entries blocks W).2).length = blocks.length := by
  induction entries generalizing blocks with
  | nil => simp [draw_rows]
  | cons e es ih =>
    cases blocks with
    | nil => simp [draw_rows]
    | cons b bs => simp [draw_rows, ih]

/-- Growing `resize` brings the queue to the maximum of its length and the
requested count. -/
theorem resize_up_length (blocks : List Nat) (n : Nat) :
    (resize_up blocks n).length = max blocks.length n := by
  simp only [resize_up]
  split <;> simp <;> omega

/-- Length of the queue left by the progress-row loop of a tick. -/
theorem drawn_blocks_length (state : State) (config : Options) :
    (drawn_blocks state config).length =
      max state.blocks_per_line.length (filtered_rows state.tree config).length := by
  simp [drawn_blocks, draw_rows_blocks_length, resize_up_length]

/-- After the progress section of a tick, the width queue holds exactly one
entry per filtered row. -/
theorem progress_phase_blocks_length (state : State) (config : Options) :
    ((progress_phase state config).2).blocks_per_line.length =
      (filtered_rows state.tree config).length := by
  have hlen := drawn_blocks_length state config
  simp only [progress_phase]
  split
  next h => simp [List.length_take]; omega
  next h => simp; omega

/-- The message phase never changes the stored snapshot. -/
theorem messages_phase_tree (state : State) (config : Options) (fmtTime : Nat → String) :
    ((messages_phase state config fmtTime).2).tree = state.tree := rfl

/-- When the empty-progress stop does not fire, the redraw pass continues
the loop, keeps the interrupt mode, and commits the back-buffer. -/
theorem redraw_pass_cont (opts : TuiOptions) (tree : List (Key × Value)) (s : LoopState)
    (hne : ¬(opts.stop_if_empty_progress = true ∧ tree = [])) :
    (redraw_pass opts tree s).isExit = false ∧
    (redraw_pass opts tree s).contMode = some s.interrupt_mode ∧
    (redraw_pass opts tree s).drewFlag = some true := by
  simp only [redraw_pass]
  rw [if_neg hne]
  exact ⟨rfl, by split <;> rfl, by split <;> rfl⟩

/-- A continuing redraw pass always reports a terminal write. -/
theorem redraw_pass_drew (opts : TuiOptions) (tree : List (Key × Value)) (s : LoopState)
    (s' : LoopState) (d : Bool)
    (hc : redraw_pass opts tree s = StepResult.cont s' d) : d = true := by
  simp only [redraw_pass] at hc
  split at hc
  · exact absurd hc (by simp)
  · split at hc <;> · injection hc with h1 h2; exact h2.symm

/-! The claim theorems. -/

/-- C1: for every determinate progress bar (fraction `f` present,
`0 ≤ f ≤ 1`) rendered with available width `W ≥ 4`, the emitted bar is
`" ["`, exactly `⌊(W−4)·f⌋` equals signs, one `>`, `W−4−⌊(W−4)·f⌋` spaces
and `"]"`, and the total visible column width of the bar's spans is `W`. -/
theorem c1_determinate_bar_layout (p : Progress) (f : ℚ) (W : Nat) (buf : List String)
    (hf : p.fraction = some f) (hf0 : 0 ≤ f) (hf1 : f ≤ 1) (hW : 4 ≤ W) :
    draw_progress_bar p W buf =
      buf ++ [" [", fill_equals (⌊((W - 4 : Nat) : ℚ) * f⌋).toNat, ">",
        fill_spaces ((W - 4) - (⌊((W - 4 : Nat) : ℚ) * f⌋).toNat), "]"] ∧
    block_count_sans_ansi_codes
      [" [", fill_equals (⌊((W - 4 : Nat) : ℚ) * f⌋).toNat, ">",
        fill_spaces ((W - 4) - (⌊((W - 4 : Nat) : ℚ) * f⌋).toNat), "]"] = W := by
  have h34 : W - 3 - 1 = W - 4 := by omega
  have hle : (⌊((W - 4 : Nat) : ℚ) * f⌋).toNat ≤ W - 4 := by
    have h1 : ((W - 4 : Nat) : ℚ) * f ≤ ((W - 4 : Nat) : ℚ) :=
      mul_le_of_le_one_right (by positivity) hf1
    have h2 : ⌊((W - 4 : Nat) : ℚ) * f⌋ ≤ ((W - 4 : Nat) : ℤ) := by
      calc ⌊((W - 4 : Nat) : ℚ) * f⌋ ≤ ⌊((W - 4 : Nat) : ℚ)⌋ := Int.floor_le_floor h1
        _ = ((W - 4 : Nat) : ℤ) := Int.floor_natCast _
    exact Int.toNat_le.mpr h2
  constructor
  · simp only [draw_progress_bar, hf, h34]
    simp [List.append_assoc]
  · have e1 : (" [" : String).length = 2 := rfl
    have e2 : ((">" : String)).length = 1 := rfl
    have e3 : (("]" : String)).length = 1 := rfl
    simp [block_count_sans_ansi_codes, spanWidth, fill_equals_length, fill_spaces_length,
      e1, e2, e3]
    omega

/-- C1 witness: a half-done bar in 10 columns has 3 equals signs, the
arrow, 3 spaces, and spans exactly 10 visible columns. -/
theorem c1_determinate_bar_layout_witness :
    half_progress.fraction = some ((1 : ℚ) / 2) ∧ (0 : ℚ) ≤ 1 / 2 ∧ ((1 : ℚ) / 2) ≤ 1 ∧
    (4 : Nat) ≤ 10 ∧
    draw_progress_bar half_progress 10 [] = [" [", "===", ">", "   ", "]"] ∧
    block_count_sans_ansi_codes [" [", "===", ">", "   ", "]"] = 10 := by
  have hfrac : half_progress.fraction = some ((1 : ℚ) / 2) := by
    norm_num [Progress.fraction, half_progress]
  refine ⟨hfrac, by norm_num, by norm_num, by norm_num, ?_, by decide⟩
  have h := c1_determinate_bar_layout half_progress ((1 : ℚ) / 2) 10 [] hfrac
    (by norm_num) (by norm_num) (by norm_num)
  rw [h.1, show (⌊((10 - 4 : Nat) : ℚ) * ((1 : ℚ) / 2)⌋).toNat = 3 by norm_num; rfl]
  decide

/-- C4: for every indeterminate progress bar (no `done_at`) with available
width `W ≥ 3`, the text between the brackets consists of exactly `W − 3`
glyphs taken from the 6-element cycle `['=','=','=',' ',' ',' ']` at
indices `(step + i) % 6` for `i = 0 .. W−4`, written in reverse order. -/
theorem c4_indeterminate_marquee (p : Progress) (W : Nat) (buf : List String)
    (hd : p.done_at = none) (hW : 3 ≤ W) :
    draw_progress_bar p W buf =
      buf ++ [" [", String.mk (((List.range (W - 3)).map
        (fun i => marquee_chars.getD ((p.step + i) % 6) ' ')).reverse), "]"] ∧
    (String.mk (((List.range (W - 3)).map
        (fun i => marquee_chars.getD ((p.step + i) % 6) ' ')).reverse)).length = W - 3 := by
  have hfrac : p.fraction = none := by simp [Progress.fraction, hd]
  constructor
  · simp only [draw_progress_bar, hfrac]
    simp [List.append_assoc, marquee_chars]
  · simp [String.length]

/-- C4 witness: at step 0 and available width 9 the bar text between the
brackets is `"   ==="`, the reverse of the first six cycle glyphs. -/
theorem c4_indeterminate_marquee_witness :
    marquee_progress.done_at = none ∧ (3 : Nat) ≤ 9 ∧
    draw_progress_bar marquee_progress 9 [] = [" [", "   ===", "]"] ∧
    ("   ===" : String).length = 9 - 3 := by
  have h := c4_indeterminate_marquee marquee_progress 9 [] rfl (by decide)
  refine ⟨rfl, by decide, ?_, by decide⟩
  rw [h.1]
  decide

/-- C3 counterexample: for the single `"build"` entry (step 5 of 10,
level 1) at terminal width 40 without colors or timestamps, the formatted
row is not the spec's `" build 5 / 10 [=· 16 ·=>·· 15 ··]"`: that string
has 48 visible columns, while the driver emits 11 equals signs and 12
trailing spaces. -/
theorem c3_scenario_counterexample :
    String.join (format_progress build_key build_value 40) ≠
      " build 5 / 10 [================>               ]" := by
  rw [show format_progress build_key build_value 40 =
      draw_progress_bar build_progress 27 [fill_spaces 1, "build", " ", "5 / 10"] from rfl,
    draw_progress_bar_det build_progress 10 27 _ rfl (by decide)]
  decide

/-- C3 (amended): for the single `"build"` entry (step 5 of 10, level 1) at
terminal width 40 without colors or timestamps, the row begins with one
space of indent and reads `build 5 / 10 [===========>            ]`
(11 equals signs, the arrow, 12 spaces), filling exactly 40 visible
columns. -/
theorem c3_scenario_row :
    String.join (format_progress build_key build_value 40) =
      " build 5 / 10 [===========>            ]" ∧
    block_count_sans_ansi_codes (format_progress build_key build_value 40) = 40 := by
  have hrow : format_progress build_key build_value 40 =
      draw_progress_bar build_progress 27 [fill_spaces 1, "build", " ", "5 / 10"] := rfl
  rw [hrow, draw_progress_bar_det build_progress 10 27 _ rfl (by decide)]
  exact ⟨by decide, by decide⟩

/-- C2 counterexample: a successful tick that renders one message and one
progress row writes 2 rows, yet leaves `blocks_per_line` with a single
entry — message rows pop their slot off the front of the queue instead of
being counted, so the queue length is not `messages + progress rows`. -/
theorem c2_queue_length_counterexample :
    rows_written (all [(build_key, headline_value)] [demo_message] true empty_line_state
      demo_config (fun _ => "")).1 = 2 ∧
    (all [(build_key, headline_value)] [demo_message] true empty_line_state
      demo_config (fun _ => "")).2 = Except.ok c2_final_state ∧
    c2_final_state.blocks_per_line.length = 1 ∧ (1 : Nat) ≠ 2 := by
  refine ⟨by decide, rfl, by decide, by decide⟩

/-- C2 (amended): after a successful line-mode tick with `show_progress`
set and a terminal sink, `blocks_per_line.len()` equals the number of
progress rows drawn (the level-filtered snapshot rows); message rows
consume their previous-width slots from the front of the queue and are not
counted. -/
theorem c2_queue_length_invariant (snapshot : List (Key × Value))
    (new_msgs : List Message) (state : State) (config : Options)
    (fmtTime : Nat → String) (st' : State)
    (hterm : config.output_is_terminal = true)
    (hok : (all snapshot new_msgs true state config fmtTime).2 = Except.ok st') :
    st'.blocks_per_line.length = (filtered_rows snapshot config).length := by
  simp only [all] at hok
  split at hok
  · exact absurd hok (by simp)
  · split at hok
    next hc =>
      simp only [Except.ok.injEq] at hok
      subst hok
      rw [progress_phase_blocks_length, messages_phase_tree]
    next hc => exact absurd ⟨trivial, hterm⟩ hc

/-- C2 witness: the amended invariant at the one-message one-headline tick:
the queue ends with exactly one entry, one per filtered progress row. -/
theorem c2_queue_length_invariant_witness :
    demo_config.output_is_terminal = true ∧
    (all [(build_key, headline_value)] [demo_message] true empty_line_state
      demo_config (fun _ => "")).2 = Except.ok c2_final_state ∧
    c2_final_state.blocks_per_line.length =
      (filtered_rows [(build_key, headline_value)] demo_config).length :=
  ⟨by decide, rfl,
    c2_queue_length_invariant [(build_key, headline_value)] [demo_message]
      empty_line_state demo_config (fun _ => "") c2_final_state (by decide) rfl⟩

/-- C5: when the line-mode driver is called with
`keep_running_if_progress_is_empty = false` and an empty snapshot, it
returns the sentinel error `"stop as progress is empty"` and writes
nothing to the sink. -/
theorem c5_empty_progress_stop (snapshot : List (Key × Value))
    (new_msgs : List Message) (show_progress : Bool) (state : State)
    (config : Options) (fmtTime : Nat → String)
    (hkeep : config.keep_running_if_progress_is_empty = false)
    (hempty : snapshot = []) :
    all snapshot new_msgs show_progress state config fmtTime =
      ([], Except.error "stop as progress is empty") := by
  subst hempty
  simp only [all]
  split
  next h => rfl
  next h => exact absurd ⟨hkeep, by trivial⟩ h

/-- C5 witness: the concrete stop: an empty tree under the no-keep-running
configuration yields the sentinel error with an empty output. -/
theorem c5_empty_progress_stop_witness :
    stop_config.keep_running_if_progress_is_empty = false ∧
    all [] [] true empty_line_state stop_config (fun _ => "") =
      ([], Except.error "stop as progress is empty") :=
  ⟨by decide,
    c5_empty_progress_stop [] [] true empty_line_state stop_config (fun _ => "")
      (by decide) rfl⟩

/-- C6: the overdraw primitive: for a row of current visible width `c`
closed against a previously stored width `p`, the driver writes exactly
`p − c` (truncated at zero) spaces after the row's content and before the
newline, and returns `c`; in particular for `c < p` the emitted events are
a write of exactly `p − c` spaces followed by the newline. -/
theorem c6_overdraw_primitive (tokens : List String) (p : Nat) :
    (newline_with_overdraw tokens p).2 = block_count_sans_ansi_codes tokens ∧
    (newline_with_overdraw tokens p).1 =
      (if p - block_count_sans_ansi_codes tokens = 0 then [] else
        [OutEvent.write (fill_spaces (p - block_count_sans_ansi_codes tokens))]) ++
      [OutEvent.newline] ∧
    (block_count_sans_ansi_codes tokens < p →
      (newline_with_overdraw tokens p).1 =
        [OutEvent.write (fill_spaces (p - block_count_sans_ansi_codes tokens)),
          OutEvent.newline] ∧
      (fill_spaces (p - block_count_sans_ansi_codes tokens)).length =
        p - block_count_sans_ansi_codes tokens) := by
  refine ⟨?_, ?_, fun hlt => ⟨?_, fill_spaces_length _⟩⟩
  · simp only [newline_with_overdraw]
    split <;> rfl
  · simp only [newline_with_overdraw]
    split
    next h => rw [if_neg (by omega)]; rfl
    next h => rw [if_pos (by omega)]; rfl
  · simp only [newline_with_overdraw]
    rw [if_pos hlt]

/-- C6 witness: a 3-column row closed against a stored width of 5 is padded
with exactly 2 trailing spaces before its newline. -/
theorem c6_overdraw_primitive_witness :
    block_count_sans_ansi_codes ["abc"] < 5 ∧
    (newline_with_overdraw ["abc"] 5).1 =
      [OutEvent.write (fill_spaces (5 - block_count_sans_ansi_codes ["abc"])),
        OutEvent.newline] ∧
    (fill_spaces (5 - block_count_sans_ansi_codes ["abc"])).length =
      5 - block_count_sans_ansi_codes ["abc"] :=
  ⟨by decide, ((c6_overdraw_primitive ["abc"] 5).2.2 (by decide)).1,
    ((c6_overdraw_primitive ["abc"] 5).2.2 (by decide)).2⟩

/-- C7: in a successful line-mode tick on a terminal with fewer progress
rows drawn than `blocks_per_line` entries, the driver emits, after the
drawn rows, one line of exactly the stored width in spaces per stale
trailing queue entry, rewinds the cursor over the whole block, and shrinks
the queue to exactly the number of rows drawn. -/
theorem c7_stale_row_erasure (snapshot : List (Key × Value)) (new_msgs : List Message)
    (state : State) (config : Options) (fmtTime : Nat → String)
    (herr : ¬(config.keep_running_if_progress_is_empty = false ∧ snapshot = []))
    (hterm : config.output_is_terminal = true)
    (hstale : (filtered_rows snapshot config).length <
      (drawn_blocks (state_after_messages snapshot new_msgs state config fmtTime)
        config).length) :
    all snapshot new_msgs true state config fmtTime =
      (messages_events snapshot new_msgs state config fmtTime ++
        (drawn_events (state_after_messages snapshot new_msgs state config fmtTime) config ++
          stale_events ((drawn_blocks (state_after_messages snapshot new_msgs state config
            fmtTime) config).drop (filtered_rows snapshot config).length) ++
          [OutEvent.moveUp (drawn_blocks (state_after_messages snapshot new_msgs state config
            fmtTime) config).length]),
       Except.ok { state_after_messages snapshot new_msgs state config fmtTime with
         blocks_per_line := (drawn_blocks (state_after_messages snapshot new_msgs state config
           fmtTime) config).take (filtered_rows snapshot config).length }) ∧
    ((drawn_blocks (state_after_messages snapshot new_msgs state config fmtTime)
        config).take (filtered_rows snapshot config).length).length =
      (filtered_rows snapshot config).length ∧
    (∀ w ∈ (drawn_blocks (state_after_messages snapshot new_msgs state config fmtTime)
        config).drop (filtered_rows snapshot config).length,
      (fill_spaces w).length = w) := by
  refine ⟨?_, ?_, fun w _ => fill_spaces_length w⟩
  · simp only [all]
    split
    next h => exact absurd h herr
    next h =>
      split
      next hc =>
        simp only [progress_phase]
        split
        next hgt => rfl
        next hgt => exact absurd hstale hgt
      next hc => exact absurd ⟨trivial, hterm⟩ hc
  · rw [List.length_take]
    omega

/-- C7 witness: a tick with one headline row over a queue remembering three
rows keeps one entry and erases the two stale ones (the stored widths 5 and
4 become lines of that many spaces). -/
theorem c7_stale_row_erasure_witness :
    (filtered_rows [(build_key, headline_value)] demo_config).length <
      (drawn_blocks (state_after_messages [(build_key, headline_value)] [] three_row_state
        demo_config (fun _ => "")) demo_config).length ∧
    ((drawn_blocks (state_after_messages [(build_key, headline_value)] [] three_row_state
        demo_config (fun _ => "")) demo_config).take
      (filtered_rows [(build_key, headline_value)] demo_config).length).length =
      (filtered_rows [(build_key, headline_value)] demo_config).length ∧
    stale_events ((drawn_blocks (state_after_messages [(build_key, headline_value)] []
        three_row_state demo_config (fun _ => "")) demo_config).drop
      (filtered_rows [(build_key, headline_value)] demo_config).length) =
      [OutEvent.write "     ", OutEvent.newline, OutEvent.write "    ", OutEvent.newline] :=
  ⟨by decide,
    (c7_stale_row_erasure [(build_key, headline_value)] [] three_row_state demo_config
      (fun _ => "") (by decide) (by decide) (by decide)).2.1,
    by decide⟩

/-- C8 counterexample: with `stop_if_empty_progress` set and an empty tree,
an interrupt key received in deferred mode does exit the loop on that very
event (through the empty-progress stop of the accompanying redraw), so the
claim's `never exits the loop` is too strong. -/
theorem c8_deferred_interrupt_counterexample :
    deferred_loop_state.interrupt_mode = InterruptDrawInfo.Deferred false ∧
    engine_step stop_opts [] deferred_loop_state (TuiEvent.Input TuiKey.Esc) =
      StepResult.exit := by
  exact ⟨rfl, by decide⟩

/-- C8 (amended): an interrupt key (Esc, `q`, Ctrl-c, Ctrl-`[`) received in
deferred mode never exits through the interrupt handling: it arms the mode
to `Deferred(true)`, and the loop continues on that event provided the
empty-progress stop does not fire; a subsequent
`SetInterruptMode(Instantly)` received while `Deferred(true)` exits the
loop immediately on that event, and under `Instantly` an interrupt key
exits at once. -/
theorem c8_interrupt_mode_transitions (opts : TuiOptions) (tree : List (Key × Value))
    (s : LoopState) (k : TuiKey) (hk : is_interrupt_key k = true)
    (hne : ¬(opts.stop_if_empty_progress = true ∧ tree = [])) :
    (∀ b, s.interrupt_mode = InterruptDrawInfo.Deferred b →
      (engine_step opts tree s (TuiEvent.Input k)).isExit = false ∧
      (engine_step opts tree s (TuiEvent.Input k)).contMode =
        some (InterruptDrawInfo.Deferred true)) ∧
    (s.interrupt_mode = InterruptDrawInfo.Deferred true →
      engine_step opts tree s (TuiEvent.SetInterruptMode Interrupt.Instantly) =
        StepResult.exit) ∧
    (s.interrupt_mode = InterruptDrawInfo.Instantly →
      engine_step opts tree s (TuiEvent.Input k) = StepResult.exit) := by
  refine ⟨fun b hb => ?_, fun hb => ?_, fun hb => ?_⟩
  · simp only [engine_step, dispatch, hk, hb, if_true, Bool.false_eq_true, if_false]
    repeat' split
    all_goals
      first
        | exact ⟨rfl, rfl⟩
        | exact ⟨(redraw_pass_cont opts tree _ hne).1,
            ((redraw_pass_cont opts tree _ hne).2.1).trans rfl⟩
  · simp only [engine_step, dispatch, hb]
  · simp only [engine_step, dispatch, hk, hb, if_true]

/-- C8 witness: on a one-task tree, Esc in unarmed deferred mode continues
the loop with the mode armed; `SetInterruptMode(Instantly)` in armed
deferred mode exits; Esc under `Instantly` exits. -/
theorem c8_interrupt_mode_transitions_witness :
    is_interrupt_key TuiKey.Esc = true ∧
    (engine_step elide_opts one_task_tree deferred_loop_state
      (TuiEvent.Input TuiKey.Esc)).isExit = false ∧
    (engine_step elide_opts one_task_tree deferred_loop_state
      (TuiEvent.Input TuiKey.Esc)).contMode = some (InterruptDrawInfo.Deferred true) ∧
    engine_step elide_opts one_task_tree armed_loop_state
      (TuiEvent.SetInterruptMode Interrupt.Instantly) = StepResult.exit ∧
    engine_step elide_opts one_task_tree fresh_loop_state
      (TuiEvent.Input TuiKey.Esc) = StepResult.exit := by
  refine ⟨by decide, ?_, ?_, ?_, ?_⟩
  · exact ((c8_interrupt_mode_transitions elide_opts one_task_tree deferred_loop_state
      TuiKey.Esc (by decide) (by decide)).1 false rfl).1
  · exact ((c8_interrupt_mode_transitions elide_opts one_task_tree deferred_loop_state
      TuiKey.Esc (by decide) (by decide)).1 false rfl).2
  · exact (c8_interrupt_mode_transitions elide_opts one_task_tree armed_loop_state
      TuiKey.Esc (by decide) (by decide)).2.1 rfl
  · exact (c8_interrupt_mode_transitions elide_opts one_task_tree fresh_loop_state
      TuiKey.Esc (by decide) (by decide)).2.2 rfl

/-- C9 counterexample: under `redraw_only_on_state_change`, two consecutive
ticks with an unchanged tree and unchanged `TuiState` both perform a
terminal write on a fresh loop: the previous-tree clone is only stored on
the second tick, so its redraw is not elided — the claim's `no terminal
write occurs for the second tick` fails. -/
theorem c9_redraw_elision_counterexample :
    engine_step elide_opts one_task_tree fresh_loop_state TuiEvent.Tick =
      StepResult.cont second_tick_state true ∧
    second_tick_state.draw_state = fresh_loop_state.draw_state ∧
    engine_step elide_opts one_task_tree second_tick_state TuiEvent.Tick =
      StepResult.cont third_tick_state true := by
  exact ⟨by decide, rfl, by decide⟩

/-- C9 (amended): under `redraw_only_on_state_change`, for every event that
does not itself set `skip_redraw` and does not exit the loop, the redraw
pass is skipped if and only if the stored previous `TuiState` clone exists
and equals the current one and the stored previous tree clone exists and is
deep-equal to the tree; on a fresh loop the clones are only populated over
the first two ticks, so the second unchanged tick still writes and
elision begins with the third. -/
theorem c9_redraw_elision (opts : TuiOptions) (tree : List (Key × Value)) (s : LoopState)
    (e : TuiEvent) (st : DrawState) (im : InterruptDrawInfo)
    (hro : opts.redraw_only_on_state_change = true)
    (hd : dispatch s.draw_state s.interrupt_mode e = some (st, im, false))
    (s' : LoopState) (d : Bool)
    (hc : engine_step opts tree s e = StepResult.cont s' d) :
    (d = false ↔ s.previous_state = some st ∧ s.previous_root = some tree) := by
  simp only [engine_step, hd, hro, if_true, Bool.false_eq_true, if_false] at hc
  split at hc
  next prev hprev =>
    split at hc
    next heq =>
      subst heq
      split at hc
      next prevRoot hroot =>
        split at hc
        next heq2 =>
          subst heq2
          injection hc with h1 h2
          subst h2
          simp [hprev, hroot]
        next hne2 =>
          have := redraw_pass_drew _ _ _ _ _ hc
          subst this
          simp [hprev, hroot]
          intro h
          exact absurd h hne2
      next hroot =>
        have := redraw_pass_drew _ _ _ _ _ hc
        subst this
        simp [hroot]
    next hne1 =>
      have := redraw_pass_drew _ _ _ _ _ hc
      subst this
      simp [hprev]
      intro h
      exact absurd h hne1
  next hprev =>
    have := redraw_pass_drew _ _ _ _ _ hc
    subst this
    simp [hprev]

/-- C9 witness: the third unchanged tick — both clones stored and matching
— is elided: its step continues without a terminal write, and the iff of
the amended claim holds at that instance. -/
theorem c9_redraw_elision_witness :
    dispatch third_tick_state.draw_state third_tick_state.interrupt_mode TuiEvent.Tick =
      some (base_draw_state, InterruptDrawInfo.Instantly, false) ∧
    engine_step elide_opts one_task_tree third_tick_state TuiEvent.Tick =
      StepResult.cont third_tick_state false ∧
    (false = false ↔ third_tick_state.previous_state = some base_draw_state ∧
      third_tick_state.previous_root = some one_task_tree) :=
  ⟨by decide, by decide,
    c9_redraw_elision elide_opts one_task_tree third_tick_state TuiEvent.Tick
      base_draw_state InterruptDrawInfo.Instantly rfl (by decide) third_tick_state false
      (by decide)⟩

/-- C10: a crossterm key event whose code is `Char(c)` and whose modifier
set is empty (no SHIFT, CONTROL or ALT) is rejected by the conversion into
the normalized key taxonomy, returning the original event as the error, so
plain unmodified character presses are never mapped to `Key::Char(c)`. -/
theorem c10_plain_char_rejected (c : Char) :
    try_from_key_event { code := KeyCode.Char c, modifiers := KeyModifiers.NONE } =
      Except.error { code := KeyCode.Char c, modifiers := KeyModifiers.NONE } := by
  simp [try_from_key_event, KeyModifiers.NONE, KeyModifiers.SHIFT, KeyModifiers.CONTROL,
    KeyModifiers.ALT]

end Prodash
